import Mathlib

/- Shallow embedding of the repository under verification: the backend
response envelope builders with their CORS configuration
(src/backend/src/config/index.ts and the unnamed response utility module),
and the frontend authenticated axios client
(src/frontend/src/services/api.ts) with its request and response
interceptors and the item service operations. JSON serialization is
modelled executably, together with a parser shown to invert it. -/

/-- JSON values: the payload universe of the response builders. Numbers are
modelled as integers. -/
inductive Json where
  | null : Json
  | bool : Bool → Json
  | num : Int → Json
  | str : String → Json
  | arr : List Json → Json
  | obj : List (String × Json) → Json

/-- Left brace character, built by code point. -/
def lbrace : Char := Char.ofNat 123

/-- Right brace character, built by code point. -/
def rbrace : Char := Char.ofNat 125

/-- Decimal digit character for a value below ten. -/
def digitChar (d : Nat) : Char := Char.ofNat (48 + d)

/-- Decimal digit characters of a natural number, most significant first. -/
def natChars (n : Nat) : List Char :=
  if _h : n < 10 then [digitChar n]
  else natChars (n / 10) ++ [digitChar (n % 10)]
termination_by n
decreasing_by exact Nat.div_lt_self (by omega) (by omega)

/-- JSON escaping of one character: quote and backslash receive a backslash
prefix, every other character stands for itself. -/
def escapeChar (c : Char) : List Char :=
  if c = '"' then ['\\', '"']
  else if c = '\\' then ['\\', '\\']
  else [c]

/-- JSON escaping over a character list. -/
def escapeStr : List Char → List Char
  | [] => []
  | c :: cs => escapeChar c ++ escapeStr cs

mutual

/-- Characters of the serialization of a JSON value, models JSON.stringify
as the backend uses it on response bodies. -/
def stringifyA : Json → List Char
  | .num (Int.ofNat n) => natChars n
  | .num (Int.negSucc m) => '-' :: natChars (m + 1)
  | .str s => '"' :: (escapeStr s.data ++ ['"'])
  | .null => ['n', 'u', 'l', 'l']
  | .bool false => ['f', 'a', 'l', 's', 'e']
  | .bool true => ['t', 'r', 'u', 'e']
  | .arr [] => ['[', ']']
  | .arr (v :: vs) => '[' :: (stringifyA v ++ stringifyArrTail vs)
  | .obj [] => [lbrace, rbrace]
  | .obj ((k, v) :: fs) =>
      lbrace :: '"' ::
        (escapeStr k.data ++ '"' :: ':' :: (stringifyA v ++ stringifyObjTail fs))

/-- Serialization of the remaining array elements: a separator before each
further element, then the closing bracket. -/
def stringifyArrTail : List Json → List Char
  | [] => [']']
  | v :: vs => ',' :: (stringifyA v ++ stringifyArrTail vs)

/-- Serialization of the remaining object members. -/
def stringifyObjTail : List (String × Json) → List Char
  | [] => [rbrace]
  | (k, v) :: fs =>
      ',' :: '"' ::
        (escapeStr k.data ++ '"' :: ':' :: (stringifyA v ++ stringifyObjTail fs))

end

/-- Models JSON.stringify. -/
def Json.stringify (v : Json) : String := String.mk (stringifyA v)

/-- Numeric value of a digit character. -/
def digitVal (c : Char) : Nat := c.toNat - 48

/-- Consume a run of digit characters, accumulating their value. -/
def parseDigits : List Char → Nat → Nat × List Char
  | [], acc => (acc, [])
  | c :: cs, acc =>
      if c.isDigit then parseDigits cs (10 * acc + digitVal c) else (acc, c :: cs)

/-- True when the list begins with a digit character. -/
def startsWithDigit : List Char → Bool
  | [] => false
  | c :: _ => c.isDigit

/-- Parse the body of a JSON string after the opening quote, undoing the
escaping, up to the closing quote. -/
def parseStringBody : List Char → Option (List Char × List Char)
  | [] => none
  | c :: cs =>
    if c = '"' then some ([], cs)
    else if c = '\\' then
      match cs with
      | [] => none
      | d :: ds =>
        if d = '"' ∨ d = '\\' then
          match parseStringBody ds with
          | none => none
          | some (s, r) => some (d :: s, r)
        else none
    else
      match parseStringBody cs with
      | none => none
      | some (s, r) => some (c :: s, r)

mutual

/-- Fuel indexed parser for one JSON value; models JSON.parse on the
fragment emitted by the serializer. -/
def parseVal : Nat → List Char → Option (Json × List Char)
  | 0, _ => none
  | fuel + 1, cs =>
    match cs with
    | [] => none
    | c :: cs2 =>
      if c = 'n' then
        match cs2 with
        | 'u' :: 'l' :: 'l' :: r => some (Json.null, r)
        | _ => none
      else if c = 't' then
        match cs2 with
        | 'r' :: 'u' :: 'e' :: r => some (Json.bool true, r)
        | _ => none
      else if c = 'f' then
        match cs2 with
        | 'a' :: 'l' :: 's' :: 'e' :: r => some (Json.bool false, r)
        | _ => none
      else if c = '"' then
        match parseStringBody cs2 with
        | none => none
        | some (s, r) => some (Json.str (String.mk s), r)
      else if c = '[' then
        match cs2 with
        | [] => none
        | d :: ds =>
          if d = ']' then some (Json.arr [], ds)
          else
            match parseVal fuel (d :: ds) with
            | none => none
            | some (v, r) =>
              match parseArrTail fuel r with
              | none => none
              | some (vs, r2) => some (Json.arr (v :: vs), r2)
      else if c = lbrace then
        match cs2 with
        | [] => none
        | d :: ds =>
          if d = rbrace then some (Json.obj [], ds)
          else if d = '"' then
            match parseStringBody ds with
            | none => none
            | some (k, r1) =>
              match r1 with
              | ':' :: r2 =>
                match parseVal fuel r2 with
                | none => none
                | some (v, r3) =>
                  match parseObjTail fuel r3 with
                  | none => none
                  | some (fs, r4) => some (Json.obj ((String.mk k, v) :: fs), r4)
              | _ => none
          else none
      else if c = '-' then
        match cs2 with
        | [] => none
        | d :: ds =>
          if d.isDigit then
            some (Json.num (-(Int.ofNat (parseDigits (d :: ds) 0).1)),
              (parseDigits (d :: ds) 0).2)
          else none
      else if c.isDigit then
        some (Json.num (Int.ofNat (parseDigits (c :: cs2) 0).1),
          (parseDigits (c :: cs2) 0).2)
      else none

/-- Parse the rest of an array after one element: a separator and a further
element, or the closing bracket. -/
def parseArrTail : Nat → List Char → Option (List Json × List Char)
  | 0, _ => none
  | fuel + 1, cs =>
    match cs with
    | [] => none
    | c :: cs2 =>
      if c = ']' then some ([], cs2)
      else if c = ',' then
        match parseVal fuel cs2 with
        | none => none
        | some (v, r) =>
          match parseArrTail fuel r with
          | none => none
          | some (vs, r2) => some (v :: vs, r2)
      else none

/-- Parse the rest of an object after one member. -/
def parseObjTail : Nat → List Char → Option (List (String × Json) × List Char)
  | 0, _ => none
  | fuel + 1, cs =>
    match cs with
    | [] => none
    | c :: cs2 =>
      if c = rbrace then some ([], cs2)
      else if c = ',' then
        match cs2 with
        | '"' :: ds =>
          match parseStringBody ds with
          | none => none
          | some (k, r1) =>
            match r1 with
            | ':' :: r2 =>
              match parseVal fuel r2 with
              | none => none
              | some (v, r3) =>
                match parseObjTail fuel r3 with
                | none => none
                | some (fs, r4) => some ((String.mk k, v) :: fs, r4)
            | _ => none
        | _ => none
      else none

end

/-- Models JSON.parse: run the value parser with the input length as fuel
and require that the whole input is consumed. -/
def Json.parse (s : String) : Option Json :=
  match parseVal s.data.length s.data with
  | some (v, []) => some v
  | _ => none

/- ===== Backend: CORS configuration and response envelope builders ===== -/

/-- Header set of every response, as built in
src/backend/src/config/index.ts. -/
structure CorsHeaders where
  accessControlAllowOrigin : Option String
  accessControlAllowCredentials : Bool
  accessControlAllowHeaders : String
  accessControlAllowMethods : String
  contentType : String
deriving DecidableEq

/-- Models the corsOption constant. The environment variable ALLOWED_ORIGIN
is passed as an Option String; the TypeScript non-null assertion operator on
process.env.ALLOWED_ORIGIN is erased at runtime, so an absent variable
leaves the header value undefined, modelled as none. -/
def corsOption (env : Option String) : CorsHeaders :=
  { accessControlAllowOrigin := env,
    accessControlAllowCredentials := false,
    accessControlAllowHeaders := "Content-Type, Authorization",
    accessControlAllowMethods := "GET, POST, PUT, DELETE, OPTIONS",
    contentType := "application/json" }

/-- Evaluating the top level of the config module builds the corsOption
object literal; that evaluation cannot throw, whether or not the
environment variable is set. -/
def initConfigModule (env : Option String) : Except String CorsHeaders :=
  Except.ok (corsOption env)

/-- Response shape handed to the serverless gateway. -/
structure APIGatewayProxyResult where
  statusCode : Nat
  headers : CorsHeaders
  body : String

/-- Models successResponse from the unnamed response utility module. The
optional status argument models the TypeScript default parameter. -/
def successResponse (env : Option String) (body : Json) (statusCode : Option Nat) :
    APIGatewayProxyResult :=
  ⟨statusCode.getD 200, corsOption env, Json.stringify body⟩

/-- Models errorResponse from the unnamed response utility module. -/
def errorResponse (env : Option String) (error message : String) (statusCode : Option Nat) :
    APIGatewayProxyResult :=
  ⟨statusCode.getD 500, corsOption env,
    Json.stringify (Json.obj [("error", Json.str error), ("message", Json.str message)])⟩

/- ===== Frontend: authenticated axios client ===== -/

/-- The three localStorage entries the client reads and clears. -/
structure LocalStorage where
  accessToken : Option String
  refreshToken : Option String
  idToken : Option String
deriving DecidableEq

/-- Models localStorage.getItem for the keys the client uses. -/
def LocalStorage.getItem (s : LocalStorage) (key : String) : Option String :=
  if key = "accessToken" then s.accessToken
  else if key = "refreshToken" then s.refreshToken
  else if key = "idToken" then s.idToken
  else none

/-- Models localStorage.removeItem. -/
def LocalStorage.removeItem (s : LocalStorage) (key : String) : LocalStorage :=
  if key = "accessToken" then ⟨none, s.refreshToken, s.idToken⟩
  else if key = "refreshToken" then ⟨s.accessToken, none, s.idToken⟩
  else if key = "idToken" then ⟨s.accessToken, s.refreshToken, none⟩
  else s

/-- HTTP verbs used by the item service. -/
inductive HttpMethod where
  | GET : HttpMethod
  | POST : HttpMethod
  | PUT : HttpMethod
  | DELETE : HttpMethod
deriving DecidableEq

/-- Outgoing request as composed by the axios instance: verb, url, the
Content-Type default header from axios.create, the optional authorization
header, and the optional JSON payload. -/
structure RequestConfig where
  method : HttpMethod
  url : String
  contentType : String
  authorization : Option String
  body : Option Json

/-- Models the request phase interceptor: read idToken from localStorage
and, when the JavaScript truthiness test passes (a falsy token, that is
null or the empty string, passes unchanged), attach the Bearer header. -/
def requestInterceptor (store : LocalStorage) (config : RequestConfig) : RequestConfig :=
  match store.getItem "idToken" with
  | some token =>
      if token = "" then config
      else { config with authorization := some ("Bearer " ++ token) }
  | none => config

/-- A raw HTTP response: status and decoded JSON payload. -/
structure HttpResponse where
  status : Nat
  data : Json

/-- Models the axios error object handed to rejection handlers; response is
none on a transport failure. -/
structure AxiosError where
  response : Option HttpResponse

/-- Browser visible client state: stored tokens and the current location. -/
structure ClientState where
  storage : LocalStorage
  href : String

/-- Fulfillment handler of the response interceptor: the identity. -/
def responseOnFulfilled (st : ClientState) (r : HttpResponse) :
    ClientState × Except AxiosError HttpResponse :=
  (st, Except.ok r)

/-- Rejection handler of the response interceptor: on status 401 clear the
three stored tokens and navigate to the sign-in page, then reject with the
original error; otherwise reject untouched. -/
def responseOnRejected (st : ClientState) (e : AxiosError) :
    ClientState × Except AxiosError HttpResponse :=
  if e.response.map HttpResponse.status = some 401 then
    (⟨((st.storage.removeItem "accessToken").removeItem "refreshToken").removeItem "idToken",
      "/signin"⟩, Except.error e)
  else (st, Except.error e)

/-- Default axios validateStatus: a status is a success iff it lies in the
2xx range. -/
def validateStatus (status : Nat) : Bool :=
  decide (200 ≤ status) && decide (status < 300)

/-- Settling of a received response through the axios dispatch and this
instance response interceptor: a 2xx response reaches the fulfillment
handler, anything else reaches the rejection handler wrapped in an error
object carrying the response. -/
def settleResponse (st : ClientState) (r : HttpResponse) :
    ClientState × Except AxiosError HttpResponse :=
  if validateStatus r.status then responseOnFulfilled st r
  else responseOnRejected st ⟨some r⟩

/-- One HTTP call issued by an item service operation. -/
structure ApiCall where
  method : HttpMethod
  url : String
  body : Option Json

/-- Request composition before the request interceptor runs: the axios
instance contributes the Content-Type default header and no authorization
header. -/
def baseConfig (call : ApiCall) : RequestConfig :=
  ⟨call.method, call.url, "application/json", none, call.body⟩

/-- Full request composition: base config then request interceptor. -/
def composeRequest (store : LocalStorage) (call : ApiCall) : RequestConfig :=
  requestInterceptor store (baseConfig call)

/-- Models itemService.deleteItem: the list of HTTP calls one invocation
issues. -/
def deleteItemCalls (id : String) : List ApiCall :=
  [⟨HttpMethod.DELETE, "/items/" ++ id, none⟩]

/-- Models the continuation of itemService.deleteItem after the awaited
call settles: a fulfilled response is discarded and the promise resolves
with no value; a rejection propagates. -/
def deleteItemResolve (outcome : Except AxiosError HttpResponse) : Except AxiosError Unit :=
  match outcome with
  | Except.ok _ => Except.ok ()
  | Except.error e => Except.error e

/- ===== Concrete inputs used by witnesses and counterexamples ===== -/

/-- Storage holding all three tokens. -/
def sampleStorage : LocalStorage := ⟨some "acc", some "ref", some "idt"⟩

/-- Storage whose idToken entry is present but empty. -/
def emptyTokenStorage : LocalStorage := ⟨some "acc", some "ref", some ""⟩

/-- Storage holding no tokens. -/
def noTokenStorage : LocalStorage := ⟨none, none, none⟩

/-- Storage agreeing with sampleStorage on idToken only. -/
def altStorage : LocalStorage := ⟨none, some "other", some "idt"⟩

/-- A list call against the collection. -/
def sampleCall : ApiCall := ⟨HttpMethod.GET, "/items", none⟩

/-- A client state with tokens present, away from the sign-in page. -/
def sampleState : ClientState := ⟨sampleStorage, "/home"⟩

/-- An unauthorized response. -/
def sample401 : HttpResponse := ⟨401, Json.null⟩

/-- A not-found response. -/
def sample404 : HttpResponse := ⟨404, Json.null⟩

/-- A plain success response. -/
def sample200 : HttpResponse := ⟨200, Json.null⟩

/- ===== Theorems ===== -/

/-- C3: success and error envelopes built against the same deployment
configuration carry structurally equal header sets, whatever the payload,
error code, message, and status codes. -/
theorem c3_headers_independent_of_outcome (env : Option String) (p : Json)
    (s : Option Nat) (e m : String) (s2 : Option Nat) :
    (successResponse env p s).headers = (errorResponse env e m s2).headers := rfl

/-- C9: with the status argument omitted, successResponse defaults to
status 200 and errorResponse defaults to status 500. -/
theorem c9_default_status_codes (env : Option String) (p : Json) (e m : String) :
    (successResponse env p none).statusCode = 200 ∧
    (errorResponse env e m none).statusCode = 500 := ⟨rfl, rfl⟩

/-- C6 counterexample: with the ALLOWED_ORIGIN environment value absent,
module initialization still succeeds, because the TypeScript non-null
assertion is erased at runtime; absence is therefore not a startup-time
failure. -/
theorem c6_counterexample :
    initConfigModule none = Except.ok (corsOption none) ∧
    (corsOption none).accessControlAllowOrigin = none := ⟨rfl, rfl⟩

/-- C6 amended: initialization of the config module always succeeds; when
the origin value is absent the allow-origin header entry is simply left
undefined, and responses are still built with that header value missing. -/
theorem c6_init_always_succeeds (env : Option String) (p : Json) (s : Option Nat) :
    initConfigModule env = Except.ok (corsOption env) ∧
    (successResponse none p s).headers.accessControlAllowOrigin = none := ⟨rfl, rfl⟩

/-- C1: a response with status 401 reaching the response phase interceptor
leaves all three stored session entries absent, sets the location to the
sign-in page, and rejects with the original failure. -/
theorem c1_401_clears_session_and_rejects (st : ClientState) (r : HttpResponse)
    (h : r.status = 401) :
    settleResponse st r =
      (⟨⟨none, none, none⟩, "/signin"⟩, Except.error ⟨some r⟩) := by
  obtain ⟨s, d⟩ := r
  have hs : s = 401 := h
  subst hs
  rfl

/-- C1 witness: the 401 theorem at a concrete state and response. -/
theorem c1_witness :
    settleResponse sampleState sample401 =
      (⟨⟨none, none, none⟩, "/signin"⟩, Except.error ⟨some sample401⟩) :=
  c1_401_clears_session_and_rejects sampleState sample401 rfl

/-- C7: a response whose status is not 401 passes through the response
phase interceptor with the client state untouched: a 2xx response is
delivered as is and any other status is rejected carrying the response
verbatim. -/
theorem c7_non_401_passthrough (st : ClientState) (r : HttpResponse)
    (h : r.status ≠ 401) :
    settleResponse st r =
      (st, if validateStatus r.status then Except.ok r
           else Except.error ⟨some r⟩) := by
  unfold settleResponse
  cases hv : validateStatus r.status with
  | true => simp [responseOnFulfilled]
  | false => simp [responseOnRejected, h]

/-- C7 witness: a 404 response passes through rejected, state untouched. -/
theorem c7_witness :
    settleResponse sampleState sample404 =
      (sampleState, Except.error ⟨some sample404⟩) := by
  have h := c7_non_401_passthrough sampleState sample404 (by decide)
  simpa using h

/-- C2 counterexample: with the idToken entry present but equal to the
empty string, the interceptor attaches no authorization header, against
the claim that any present token is attached as a bearer credential. -/
theorem c2_counterexample :
    emptyTokenStorage.getItem "idToken" = some "" ∧
    (composeRequest emptyTokenStorage sampleCall).authorization = none :=
  ⟨rfl, rfl⟩

/-- C2 amended: a present and non-empty token is attached as a bearer
credential; with no token, or with the empty-string token, which the
JavaScript truthiness test treats as absent, the request carries no
authorization header. -/
theorem c2_bearer_header (store : LocalStorage) (call : ApiCall) :
    (∀ t, store.getItem "idToken" = some t → t ≠ "" →
      (composeRequest store call).authorization = some ("Bearer " ++ t)) ∧
    (store.getItem "idToken" = none →
      (composeRequest store call).authorization = none) ∧
    (store.getItem "idToken" = some "" →
      (composeRequest store call).authorization = none) := by
  refine ⟨fun t ht hne => ?_, fun h => ?_, fun h => ?_⟩ <;>
    simp [composeRequest, requestInterceptor, baseConfig, *]

/-- C2 witness: the amended theorem at concrete storages. -/
theorem c2_witness :
    (composeRequest sampleStorage sampleCall).authorization =
      some ("Bearer " ++ "idt") ∧
    (composeRequest noTokenStorage sampleCall).authorization = none :=
  ⟨(c2_bearer_header sampleStorage sampleCall).1 "idt" rfl (by decide),
   (c2_bearer_header noTokenStorage sampleCall).2.1 rfl⟩

/-- C8: deleteItem issues exactly one DELETE call, to the path of the
given identifier, and on any 2xx settlement resolves with no payload. -/
theorem c8_delete_item (id : String) (st : ClientState) (r : HttpResponse)
    (h : validateStatus r.status = true) :
    deleteItemCalls id = [⟨HttpMethod.DELETE, "/items/" ++ id, none⟩] ∧
    (deleteItemCalls id).length = 1 ∧
    deleteItemResolve (settleResponse st r).2 = Except.ok () := by
  refine ⟨rfl, rfl, ?_⟩
  simp [settleResponse, h, responseOnFulfilled, deleteItemResolve]

/-- C8 witness: the delete theorem at a concrete id, state, and 200
response. -/
theorem c8_witness :
    deleteItemCalls "42" = [⟨HttpMethod.DELETE, "/items/" ++ "42", none⟩] ∧
    (deleteItemCalls "42").length = 1 ∧
    deleteItemResolve (settleResponse sampleState sample200).2 = Except.ok () :=
  c8_delete_item "42" sampleState sample200 rfl

/-- C10: the request phase interceptor reads only the idToken entry: two
storages agreeing on idToken compose identical requests, whatever their
accessToken and refreshToken entries hold. -/
theorem c10_request_depends_only_on_idtoken (s1 s2 : LocalStorage)
    (h : s1.idToken = s2.idToken) :
    (∀ config, requestInterceptor s1 config = requestInterceptor s2 config) ∧
    (∀ call, composeRequest s1 call = composeRequest s2 call) := by
  have hg : s1.getItem "idToken" = s2.getItem "idToken" := by
    simp [LocalStorage.getItem, h]
  constructor <;> intro x <;> simp [composeRequest, requestInterceptor, hg]

/-- C10 witness: two storages differing in access and refresh tokens but
agreeing on idToken compose the same request. -/
theorem c10_witness :
    requestInterceptor sampleStorage (baseConfig sampleCall) =
      requestInterceptor altStorage (baseConfig sampleCall) ∧
    composeRequest sampleStorage sampleCall = composeRequest altStorage sampleCall :=
  ⟨(c10_request_depends_only_on_idtoken sampleStorage altStorage rfl).1
      (baseConfig sampleCall),
   (c10_request_depends_only_on_idtoken sampleStorage altStorage rfl).2 sampleCall⟩

/- ===== Round-trip of the JSON codec ===== -/

/-- A digit character for a value below ten is a digit. -/
theorem digitChar_isDigit (d : Nat) (h : d < 10) : (digitChar d).isDigit = true := by
  interval_cases d <;> decide

/-- Reading back the digit character recovers the value. -/
theorem digitVal_digitChar (d : Nat) (h : d < 10) : digitVal (digitChar d) = d := by
  interval_cases d <;> decide

/-- A digit character is none of the characters that open another kind of
JSON value, and closes no array. -/
theorem digit_not_special {c : Char} (h : c.isDigit = true) :
    c ≠ 'n' ∧ c ≠ 't' ∧ c ≠ 'f' ∧ c ≠ '"' ∧ c ≠ '[' ∧ c ≠ lbrace ∧ c ≠ '-' ∧ c ≠ ']' := by
  refine ⟨?_, ?_, ?_, ?_, ?_, ?_, ?_, ?_⟩ <;>
    (intro he; subst he; exact absurd h (by decide))

/-- Unfolding of natChars below ten. -/
theorem natChars_small {n : Nat} (h : n < 10) : natChars n = [digitChar n] := by
  rw [natChars.eq_def]
  simp [h]

/-- Unfolding of natChars from ten upward. -/
theorem natChars_big {n : Nat} (h : ¬ n < 10) :
    natChars n = natChars (n / 10) ++ [digitChar (n % 10)] := by
  rw [natChars.eq_def]
  simp [h]

/-- Every character of a rendered natural number is a digit. -/
theorem natChars_all_digits (n : Nat) : ∀ c ∈ natChars n, c.isDigit = true := by
  induction n using Nat.strongRecOn with
  | ind n ih =>
    by_cases h : n < 10
    · rw [natChars_small h]
      intro c hc
      rw [List.mem_singleton] at hc
      subst hc
      exact digitChar_isDigit n h
    · rw [natChars_big h]
      intro c hc
      rw [List.mem_append] at hc
      rcases hc with hc | hc
      · exact ih (n / 10) (Nat.div_lt_self (by omega) (by omega)) c hc
      · rw [List.mem_singleton] at hc
        subst hc
        exact digitChar_isDigit _ (Nat.mod_lt _ (by omega))

/-- A rendered natural number is never empty. -/
theorem natChars_ne_nil (n : Nat) : natChars n ≠ [] := by
  by_cases h : n < 10
  · rw [natChars_small h]; simp
  · rw [natChars_big h]; simp

/-- A rendered natural number begins with a digit. -/
theorem natChars_head (n : Nat) :
    ∃ c cs, natChars n = c :: cs ∧ c.isDigit = true := by
  match h : natChars n with
  | [] => exact absurd h (natChars_ne_nil n)
  | c :: cs =>
      exact ⟨c, cs, rfl, natChars_all_digits n c (h ▸ List.mem_cons_self c cs)⟩

/-- Folding the digit accumulator over a rendered natural number. -/
theorem foldl_natChars (n : Nat) : ∀ acc : Nat,
    (natChars n).foldl (fun a c => 10 * a + digitVal c) acc
      = acc * 10 ^ (natChars n).length + n := by
  induction n using Nat.strongRecOn with
  | ind n ih =>
    intro acc
    by_cases h : n < 10
    · rw [natChars_small h]
      simp [digitVal_digitChar n h]
      omega
    · rw [natChars_big h]
      rw [List.foldl_append]
      rw [ih (n / 10) (Nat.div_lt_self (by omega) (by omega)) acc]
      have hmod := Nat.div_add_mod n 10
      have hlt : n % 10 < 10 := Nat.mod_lt _ (by omega)
      simp [digitVal_digitChar _ hlt, List.length_append, pow_succ]
      calc 10 * (acc * 10 ^ (natChars (n / 10)).length + n / 10) + n % 10
          = acc * 10 ^ (natChars (n / 10)).length * 10
              + (10 * (n / 10) + n % 10) := by ring
        _ = acc * (10 ^ (natChars (n / 10)).length * 10) + n := by rw [hmod]; ring

/-- The digit run parser stops at once on input with no leading digit. -/
theorem parseDigits_stop {rest : List Char} (h : startsWithDigit rest = false)
    (acc : Nat) : parseDigits rest acc = (acc, rest) := by
  cases rest with
  | nil => rfl
  | cons c cs =>
      simp only [startsWithDigit] at h
      simp [parseDigits, h]

/-- The digit run parser consumes a run of digits, folding them into the
accumulator. -/
theorem parseDigits_run : ∀ (ds : List Char), (∀ c ∈ ds, c.isDigit = true) →
    ∀ (rest : List Char) (acc : Nat),
    parseDigits (ds ++ rest) acc
      = parseDigits rest (ds.foldl (fun a c => 10 * a + digitVal c) acc)
  | [], _, rest, acc => by simp
  | c :: ds, h, rest, acc => by
      have hc : c.isDigit = true := h c (List.mem_cons_self c ds)
      rw [List.cons_append]
      simp only [parseDigits, hc, if_pos, List.foldl_cons]
      exact parseDigits_run ds (fun x hx => h x (List.mem_cons_of_mem c hx)) rest _

/-- The digit run parser inverts natChars whenever the remainder opens with
no digit. -/
theorem parseDigits_natChars (n : Nat) {rest : List Char}
    (h : startsWithDigit rest = false) :
    parseDigits (natChars n ++ rest) 0 = (n, rest) := by
  rw [parseDigits_run (natChars n) (natChars_all_digits n) rest 0]
  rw [foldl_natChars n 0]
  simpa using parseDigits_stop h n

/-- The string body parser inverts the escaping up to the closing quote. -/
theorem parseStringBody_escape : ∀ (cs rest : List Char),
    parseStringBody (escapeStr cs ++ '"' :: rest) = some (cs, rest)
  | [], rest => by
      rw [show escapeStr [] ++ '"' :: rest = '"' :: rest by simp [escapeStr]]
      rw [parseStringBody.eq_def]
      simp
  | c :: cs, rest => by
      by_cases hq : c = '"'
      · subst hq
        have ih := parseStringBody_escape cs rest
        rw [show escapeStr ('"' :: cs) ++ '"' :: rest
              = '\\' :: '"' :: (escapeStr cs ++ '"' :: rest) by
            simp [escapeStr, escapeChar]]
        rw [parseStringBody.eq_def]
        simp [ih]
      · by_cases hb : c = '\\'
        · subst hb
          have ih := parseStringBody_escape cs rest
          rw [show escapeStr ('\\' :: cs) ++ '"' :: rest
                = '\\' :: '\\' :: (escapeStr cs ++ '"' :: rest) by
              simp [escapeStr, escapeChar]]
          rw [parseStringBody.eq_def]
          simp [ih]
        · have ih := parseStringBody_escape cs rest
          rw [show escapeStr (c :: cs) ++ '"' :: rest
                = c :: (escapeStr cs ++ '"' :: rest) by
              simp [escapeStr, escapeChar, hq, hb]]
          rw [parseStringBody.eq_def]
          simp [hq, hb, ih]

/-- Every serialized JSON value begins with a character that closes no
array. -/
theorem stringifyA_head (v : Json) :
    ∃ c cs, stringifyA v = c :: cs ∧ c ≠ ']' := by
  cases v with
  | null => exact ⟨'n', _, rfl, by decide⟩
  | bool b =>
      cases b with
      | true => exact ⟨'t', _, rfl, by decide⟩
      | false => exact ⟨'f', _, rfl, by decide⟩
  | num i =>
      cases i with
      | ofNat n =>
          obtain ⟨c, cs, hn, hd⟩ := natChars_head n
          exact ⟨c, cs, hn, (digit_not_special hd).2.2.2.2.2.2.2⟩
      | negSucc m => exact ⟨'-', _, rfl, by decide⟩
  | str s => exact ⟨'"', _, rfl, by decide⟩
  | arr vs =>
      cases vs with
      | nil => exact ⟨'[', _, rfl, by decide⟩
      | cons v vs => exact ⟨'[', _, rfl, by decide⟩
  | obj fs =>
      cases fs with
      | nil => exact ⟨lbrace, _, rfl, by decide⟩
      | cons f fs =>
          obtain ⟨k, w⟩ := f
          exact ⟨lbrace, _, rfl, by decide⟩

/-- The serialized tail of an array never begins with a digit. -/
theorem arrTail_no_digit (vs : List Json) (rest : List Char) :
    startsWithDigit (stringifyArrTail vs ++ rest) = false := by
  cases vs with
  | nil => simp only [stringifyArrTail, List.cons_append, startsWithDigit]; decide
  | cons v vs => simp only [stringifyArrTail, List.cons_append, startsWithDigit]; decide

/-- The serialized tail of an object never begins with a digit. -/
theorem objTail_no_digit (fs : List (String × Json)) (rest : List Char) :
    startsWithDigit (stringifyObjTail fs ++ rest) = false := by
  cases fs with
  | nil => simp only [stringifyObjTail, List.cons_append, startsWithDigit]; decide
  | cons f fs =>
      obtain ⟨k, w⟩ := f
      simp only [stringifyObjTail, List.cons_append, startsWithDigit]; decide

/-- A serialized JSON value is never empty. -/
theorem stringifyA_length_pos (v : Json) : 1 ≤ (stringifyA v).length := by
  obtain ⟨c, cs, h, _⟩ := stringifyA_head v
  simp [h]

/-- A serialized array tail is never empty. -/
theorem arrTail_length_pos (vs : List Json) : 1 ≤ (stringifyArrTail vs).length := by
  cases vs <;> simp [stringifyArrTail]

/-- A serialized object tail is never empty. -/
theorem objTail_length_pos (fs : List (String × Json)) :
    1 ≤ (stringifyObjTail fs).length := by
  cases fs with
  | nil => simp [stringifyObjTail]
  | cons f fs =>
      obtain ⟨k, w⟩ := f
      simp [stringifyObjTail]

/-- Rebuilding a string from its characters is the identity. -/
theorem String.mk_data_eq (s : String) : String.mk s.data = s := rfl

/-- One-step unfolding of the value parser on a nonempty input, stated as
the literal body so later lemmas can rewrite branch by branch. -/
theorem parseVal_step (fuel : Nat) (c : Char) (cs2 : List Char) :
    parseVal (fuel + 1) (c :: cs2) =
      (if c = 'n' then
        match cs2 with
        | 'u' :: 'l' :: 'l' :: r => some (Json.null, r)
        | _ => none
      else if c = 't' then
        match cs2 with
        | 'r' :: 'u' :: 'e' :: r => some (Json.bool true, r)
        | _ => none
      else if c = 'f' then
        match cs2 with
        | 'a' :: 'l' :: 's' :: 'e' :: r => some (Json.bool false, r)
        | _ => none
      else if c = '"' then
        match parseStringBody cs2 with
        | none => none
        | some (s, r) => some (Json.str (String.mk s), r)
      else if c = '[' then
        match cs2 with
        | [] => none
        | d :: ds =>
          if d = ']' then some (Json.arr [], ds)
          else
            match parseVal fuel (d :: ds) with
            | none => none
            | some (v, r) =>
              match parseArrTail fuel r with
              | none => none
              | some (vs, r2) => some (Json.arr (v :: vs), r2)
      else if c = lbrace then
        match cs2 with
        | [] => none
        | d :: ds =>
          if d = rbrace then some (Json.obj [], ds)
          else if d = '"' then
            match parseStringBody ds with
            | none => none
            | some (k, r1) =>
              match r1 with
              | ':' :: r2 =>
                match parseVal fuel r2 with
                | none => none
                | some (v, r3) =>
                  match parseObjTail fuel r3 with
                  | none => none
                  | some (fs, r4) => some (Json.obj ((String.mk k, v) :: fs), r4)
              | _ => none
          else none
      else if c = '-' then
        match cs2 with
        | [] => none
        | d :: ds =>
          if d.isDigit then
            some (Json.num (-(Int.ofNat (parseDigits (d :: ds) 0).1)),
              (parseDigits (d :: ds) 0).2)
          else none
      else if c.isDigit then
        some (Json.num (Int.ofNat (parseDigits (c :: cs2) 0).1),
          (parseDigits (c :: cs2) 0).2)
      else none) := rfl

/-- One-step unfolding of the array tail parser on a nonempty input. -/
theorem parseArrTail_step (fuel : Nat) (c : Char) (cs2 : List Char) :
    parseArrTail (fuel + 1) (c :: cs2) =
      (if c = ']' then some ([], cs2)
      else if c = ',' then
        match parseVal fuel cs2 with
        | none => none
        | some (v, r) =>
          match parseArrTail fuel r with
          | none => none
          | some (vs, r2) => some (v :: vs, r2)
      else none) := rfl

/-- One-step unfolding of the object tail parser on a nonempty input. -/
theorem parseObjTail_step (fuel : Nat) (c : Char) (cs2 : List Char) :
    parseObjTail (fuel + 1) (c :: cs2) =
      (if c = rbrace then some ([], cs2)
      else if c = ',' then
        match cs2 with
        | '"' :: ds =>
          match parseStringBody ds with
          | none => none
          | some (k, r1) =>
            match r1 with
            | ':' :: r2 =>
              match parseVal fuel r2 with
              | none => none
              | some (v, r3) =>
                match parseObjTail fuel r3 with
                | none => none
                | some (fs, r4) => some ((String.mk k, v) :: fs, r4)
            | _ => none
        | _ => none
      else none) := rfl

/-- On input with a leading digit, the value parser reads a number. -/
theorem parseVal_digit_case (fuel : Nat) (c : Char) (cs2 : List Char)
    (h : c.isDigit = true) :
    parseVal (fuel + 1) (c :: cs2)
      = some (Json.num (Int.ofNat (parseDigits (c :: cs2) 0).1),
          (parseDigits (c :: cs2) 0).2) := by
  obtain ⟨h1, h2, h3, h4, h5, h6, h7, _⟩ := digit_not_special h
  rw [parseVal_step]
  simp [h1, h2, h3, h4, h5, h6, h7, h]

/-- One parsing step into a nonempty array: a serialized element follows
the opening bracket. -/
theorem parseVal_arr_step (fuel : Nat) (v : Json) (X : List Char) :
    parseVal (fuel + 1) ('[' :: (stringifyA v ++ X))
      = (match parseVal fuel (stringifyA v ++ X) with
         | none => none
         | some (w, r) =>
           match parseArrTail fuel r with
           | none => none
           | some (ws, r2) => some (Json.arr (w :: ws), r2)) := by
  obtain ⟨c, cs, hv, hne⟩ := stringifyA_head v
  rw [hv, List.cons_append]
  rw [parseVal_step]
  simp [hne]

/-- One parsing step into a nonempty object: a serialized key and value
follow the opening brace. -/
theorem parseVal_obj_step (fuel : Nat) (k : String) (w : Json) (X : List Char) :
    parseVal (fuel + 1)
        (lbrace :: '"' :: (escapeStr k.data ++ '"' :: ':' :: (stringifyA w ++ X)))
      = (match parseVal fuel (stringifyA w ++ X) with
         | none => none
         | some (v, r) =>
           match parseObjTail fuel r with
           | none => none
           | some (fs, r2) => some (Json.obj ((k, v) :: fs), r2)) := by
  have hkey := parseStringBody_escape k.data (':' :: (stringifyA w ++ X))
  have ha1 : ¬ (lbrace = 'n') := by decide
  have ha2 : ¬ (lbrace = 't') := by decide
  have ha3 : ¬ (lbrace = 'f') := by decide
  have ha4 : ¬ (lbrace = '"') := by decide
  have ha5 : ¬ (lbrace = '[') := by decide
  have ha6 : ¬ (('"' : Char) = rbrace) := by decide
  rw [parseVal_step]
  simp [hkey, String.mk_data_eq, ha1, ha2, ha3, ha4, ha5, ha6]

/-- One parsing step along an array tail: a separator then an element. -/
theorem parseArrTail_cons_step (fuel : Nat) (v : Json) (X : List Char) :
    parseArrTail (fuel + 1) (',' :: (stringifyA v ++ X))
      = (match parseVal fuel (stringifyA v ++ X) with
         | none => none
         | some (w, r) =>
           match parseArrTail fuel r with
           | none => none
           | some (ws, r2) => some (w :: ws, r2)) := by
  rw [parseArrTail_step]
  simp

/-- One parsing step along an object tail: a separator then a member. -/
theorem parseObjTail_cons_step (fuel : Nat) (k : String) (w : Json) (X : List Char) :
    parseObjTail (fuel + 1)
        (',' :: '"' :: (escapeStr k.data ++ '"' :: ':' :: (stringifyA w ++ X)))
      = (match parseVal fuel (stringifyA w ++ X) with
         | none => none
         | some (v, r) =>
           match parseObjTail fuel r with
           | none => none
           | some (fs, r2) => some ((k, v) :: fs, r2)) := by
  have hkey := parseStringBody_escape k.data (':' :: (stringifyA w ++ X))
  have ha : ¬ ((',' : Char) = rbrace) := by decide
  rw [parseObjTail_step]
  simp [hkey, String.mk_data_eq, ha]

/-- The parser inverts the serializer: with fuel at least the serialized
length, parsing a serialized value consumes exactly it, and likewise for
serialized array and object tails. -/
theorem parse_round (fuel : Nat) :
    (∀ v rest, (stringifyA v).length ≤ fuel → startsWithDigit rest = false →
      parseVal fuel (stringifyA v ++ rest) = some (v, rest)) ∧
    (∀ vs rest, (stringifyArrTail vs).length ≤ fuel →
      parseArrTail fuel (stringifyArrTail vs ++ rest) = some (vs, rest)) ∧
    (∀ fs rest, (stringifyObjTail fs).length ≤ fuel →
      parseObjTail fuel (stringifyObjTail fs ++ rest) = some (fs, rest)) := by
  induction fuel with
  | zero =>
      refine ⟨fun v rest hlen _ => ?_, fun vs rest hlen => ?_, fun fs rest hlen => ?_⟩
      · exact absurd hlen (by have := stringifyA_length_pos v; omega)
      · exact absurd hlen (by have := arrTail_length_pos vs; omega)
      · exact absurd hlen (by have := objTail_length_pos fs; omega)
  | succ fuel ih =>
      obtain ⟨ihv, iha, iho⟩ := ih
      refine ⟨fun v rest hlen hrest => ?_, fun vs rest hlen => ?_, fun fs rest hlen => ?_⟩
      · cases v with
        | null =>
            rw [show stringifyA Json.null ++ rest
                  = 'n' :: 'u' :: 'l' :: 'l' :: rest from rfl]
            rw [parseVal_step]
            simp
        | bool b =>
            cases b with
            | true =>
                rw [show stringifyA (Json.bool true) ++ rest
                      = 't' :: 'r' :: 'u' :: 'e' :: rest from rfl]
                rw [parseVal_step]
                simp
            | false =>
                rw [show stringifyA (Json.bool false) ++ rest
                      = 'f' :: 'a' :: 'l' :: 's' :: 'e' :: rest from rfl]
                rw [parseVal_step]
                simp
        | num i =>
            cases i with
            | ofNat n =>
                obtain ⟨c, cs, hn, hd⟩ := natChars_head n
                have hpd : parseDigits (natChars n ++ rest) 0 = (n, rest) :=
                  parseDigits_natChars n hrest
                rw [show stringifyA (Json.num (Int.ofNat n)) ++ rest
                      = natChars n ++ rest from rfl]
                rw [show natChars n ++ rest = c :: (cs ++ rest) by simp [hn]]
                rw [parseVal_digit_case fuel c (cs ++ rest) hd]
                rw [show c :: (cs ++ rest) = natChars n ++ rest by simp [hn]]
                rw [hpd]
            | negSucc m =>
                obtain ⟨c, cs, hn, hd⟩ := natChars_head (m + 1)
                have hpd : parseDigits (natChars (m + 1) ++ rest) 0 = (m + 1, rest) :=
                  parseDigits_natChars (m + 1) hrest
                have hlb : ¬ (('-' : Char) = lbrace) := by decide
                rw [show stringifyA (Json.num (Int.negSucc m)) ++ rest
                      = '-' :: (natChars (m + 1) ++ rest) from rfl]
                rw [parseVal_step]
                rw [show natChars (m + 1) ++ rest = c :: (cs ++ rest) by simp [hn]]
                simp only [hlb]
                simp [hd]
                rw [show c :: (cs ++ rest) = natChars (m + 1) ++ rest by simp [hn]]
                rw [hpd]
                simp [Int.negSucc_eq]
                try omega
        | str s =>
            rw [show stringifyA (Json.str s) ++ rest
                  = '"' :: (escapeStr s.data ++ ('"' :: rest)) from by
                simp [stringifyA, List.append_assoc]]
            rw [parseVal_step]
            simp [parseStringBody_escape s.data rest, String.mk_data_eq]
        | arr vs =>
            cases vs with
            | nil =>
                rw [show stringifyA (Json.arr []) ++ rest = '[' :: ']' :: rest from rfl]
                rw [parseVal_step]
                simp
            | cons v vs =>
                have hlen1 : (stringifyA v).length ≤ fuel := by
                  have h1 := arrTail_length_pos vs
                  simp [stringifyA] at hlen
                  omega
                have hlen2 : (stringifyArrTail vs).length ≤ fuel := by
                  have h1 := stringifyA_length_pos v
                  simp [stringifyA] at hlen
                  omega
                have hval := ihv v (stringifyArrTail vs ++ rest) hlen1
                  (arrTail_no_digit vs rest)
                have htail := iha vs rest hlen2
                rw [show stringifyA (Json.arr (v :: vs)) ++ rest
                      = '[' :: (stringifyA v ++ (stringifyArrTail vs ++ rest)) from by
                    simp [stringifyA]]
                rw [parseVal_arr_step]
                rw [hval]
                simp [htail]
        | obj fs =>
            cases fs with
            | nil =>
                have ha1 : ¬ (lbrace = 'n') := by decide
                have ha2 : ¬ (lbrace = 't') := by decide
                have ha3 : ¬ (lbrace = 'f') := by decide
                have ha4 : ¬ (lbrace = '"') := by decide
                have ha5 : ¬ (lbrace = '[') := by decide
                rw [show stringifyA (Json.obj []) ++ rest
                      = lbrace :: rbrace :: rest from rfl]
                rw [parseVal_step]
                simp [ha1, ha2, ha3, ha4, ha5]
            | cons f fs =>
                obtain ⟨k, w⟩ := f
                have hlen1 : (stringifyA w).length ≤ fuel := by
                  have h1 := objTail_length_pos fs
                  simp [stringifyA] at hlen
                  omega
                have hlen2 : (stringifyObjTail fs).length ≤ fuel := by
                  have h1 := stringifyA_length_pos w
                  simp [stringifyA] at hlen
                  omega
                have hval := ihv w (stringifyObjTail fs ++ rest) hlen1
                  (objTail_no_digit fs rest)
                have htail := iho fs rest hlen2
                rw [show stringifyA (Json.obj ((k, w) :: fs)) ++ rest
                      = lbrace :: '"' :: (escapeStr k.data ++ '"' :: ':' ::
                          (stringifyA w ++ (stringifyObjTail fs ++ rest))) from by
                    simp [stringifyA]]
                rw [parseVal_obj_step]
                rw [hval]
                simp [htail]
      · cases vs with
        | nil =>
            rw [show stringifyArrTail ([] : List Json) ++ rest = ']' :: rest from rfl]
            rw [parseArrTail_step]
            simp
        | cons v vs =>
            have hlen1 : (stringifyA v).length ≤ fuel := by
              have h1 := arrTail_length_pos vs
              simp [stringifyArrTail] at hlen
              omega
            have hlen2 : (stringifyArrTail vs).length ≤ fuel := by
              have h1 := stringifyA_length_pos v
              simp [stringifyArrTail] at hlen
              omega
            have hval := ihv v (stringifyArrTail vs ++ rest) hlen1
              (arrTail_no_digit vs rest)
            have htail := iha vs rest hlen2
            rw [show stringifyArrTail (v :: vs) ++ rest
                  = ',' :: (stringifyA v ++ (stringifyArrTail vs ++ rest)) from by
                simp [stringifyArrTail]]
            rw [parseArrTail_cons_step]
            rw [hval]
            simp [htail]
      · cases fs with
        | nil =>
            rw [show stringifyObjTail ([] : List (String × Json)) ++ rest
                  = rbrace :: rest from rfl]
            rw [parseObjTail_step]
            simp
        | cons f fs =>
            obtain ⟨k, w⟩ := f
            have hlen1 : (stringifyA w).length ≤ fuel := by
              have h1 := objTail_length_pos fs
              simp [stringifyObjTail] at hlen
              omega
            have hlen2 : (stringifyObjTail fs).length ≤ fuel := by
              have h1 := stringifyA_length_pos w
              simp [stringifyObjTail] at hlen
              omega
            have hval := ihv w (stringifyObjTail fs ++ rest) hlen1
              (objTail_no_digit fs rest)
            have htail := iho fs rest hlen2
            rw [show stringifyObjTail ((k, w) :: fs) ++ rest
                  = ',' :: '"' :: (escapeStr k.data ++ '"' :: ':' ::
                      (stringifyA w ++ (stringifyObjTail fs ++ rest))) from by
                simp [stringifyObjTail]]
            rw [parseObjTail_cons_step]
            rw [hval]
            simp [htail]

/-- Parsing a stringified value gives the value back. -/
theorem parse_stringify (v : Json) : Json.parse (Json.stringify v) = some v := by
  have h := (parse_round (stringifyA v).length).1 v [] le_rfl rfl
  rw [List.append_nil] at h
  show (match parseVal (stringifyA v).length (stringifyA v) with
        | some (w, []) => some w
        | _ => none) = some v
  rw [h]

/-- C4: deserializing the body of a success envelope yields the payload,
and deserializing the body of an error envelope yields the record with the
error and message fields. -/
theorem c4_body_roundtrip (env : Option String) (p : Json) (s : Option Nat)
    (e m : String) (s2 : Option Nat) :
    Json.parse (successResponse env p s).body = some p ∧
    Json.parse (errorResponse env e m s2).body =
      some (Json.obj [("error", Json.str e), ("message", Json.str m)]) :=
  ⟨parse_stringify p, parse_stringify _⟩

/-- C5: on both builder paths the body is a valid serialized JSON string:
the serialization of the success payload, respectively of the error and
message record, and deserialization succeeds on it. -/
theorem c5_body_valid_json (env : Option String) (p : Json) (s : Option Nat)
    (e m : String) (s2 : Option Nat) :
    (successResponse env p s).body = Json.stringify p ∧
    (errorResponse env e m s2).body =
      Json.stringify (Json.obj [("error", Json.str e), ("message", Json.str m)]) ∧
    (Json.parse (successResponse env p s).body).isSome = true ∧
    (Json.parse (errorResponse env e m s2).body).isSome = true := by
  refine ⟨rfl, rfl, ?_, ?_⟩
  · rw [show (successResponse env p s).body = Json.stringify p from rfl,
        parse_stringify]
    rfl
  · rw [show (errorResponse env e m s2).body
          = Json.stringify (Json.obj [("error", Json.str e), ("message", Json.str m)])
          from rfl,
        parse_stringify]
    rfl
